import Mathlib

/-!
Verification of the `imq` messaging-queue core (TypeScript sources
`src/profile.ts`: the `RedisQueue` class and the `profile` decorator).

The development shallowly embeds the functions that decide each claim:

* the `moveDelayed` server-side Lua script (sorted-set promotion);
* the `send` producer (command issuance and fire-and-forget id return);
* the `process` consumer step (event emission);
* the watcher pmessage handler and the safe-delivery sweeper;
* `start` lifecycle control flow;
* the `profile` decorator wrapper;
* the `intrand` helper.

Redis state is modelled explicitly: lists as Lean lists (head = left end),
sorted sets as association lists of member/score in ascending-score order,
key spaces as functions from key strings to lists.  JavaScript numbers that
hold millisecond timestamps are modelled as `Int`; truthiness of an optional
numeric argument is modelled on `Option Int`.
-/

namespace Imq

/-! ### Redis primitives used by the embedded code -/

/-- A key space of Redis lists: every key maps to a list of string values,
whose head is the LEFT end of the Redis list (so `LPUSH` conses and
`RPOP` takes `getLast`). -/
def KeySpace : Type := String → List String

/-- Point update of a key space. -/
def KeySpace.update (st : KeySpace) (k : String) (v : List String) : KeySpace :=
  fun x => if x = k then v else st x

/-- Redis `RPOPLPUSH src dst`: pop the tail element of the list at `src`
and push it onto the head of the list at `dst`.  A no-op when `src` is
empty.  When `src = dst` this rotates the list, as on a real server. -/
def rpoplpush (st : KeySpace) (src dst : String) : KeySpace :=
  match (st src).getLast? with
  | none => st
  | some v =>
    let st1 := KeySpace.update st src (st src).dropLast
    KeySpace.update st1 dst (v :: st1 dst)

/-- A Redis sorted set: member/score pairs kept in ascending-score order
(the order in which `ZRANGEBYSCORE` iterates them). -/
abbrev ZSet : Type := List (String × Int)

/-- `ZRANGEBYSCORE key -inf maxScore`: all members with score ≤ `maxScore`,
in iteration (ascending-score) order. -/
def zrangebyscoreLe (z : ZSet) (maxScore : Int) : List String :=
  (z.filter (fun p => p.2 ≤ maxScore)).map Prod.fst

/-- `ZREMRANGEBYSCORE key -inf maxScore`: drop all members with
score ≤ `maxScore`. -/
def zremrangebyscoreLe (z : ZSet) (maxScore : Int) : ZSet :=
  z.filter (fun p => maxScore < p.2)

/-- Left-push each message of `msgs` onto list `l` in iteration order,
as the Lua `while messages[i] do redis.call("lpush", KEYS[2], messages[i])`
loop does. -/
def lpushAll (l : List String) (msgs : List String) : List String :=
  msgs.foldl (fun acc m => m :: acc) l

/-! ### The `moveDelayed` script (profile.ts, `RedisQueue.scripts`)

Lua source: read `ZRANGEBYSCORE KEYS[1] -inf ARGV[1]`, count the result,
and when the count is positive `LPUSH` every message onto `KEYS[2]` and
`ZREMRANGEBYSCORE KEYS[1] -inf ARGV[1]`; finally return the count.
`KEYS[1]` is the delayed sorted set, `KEYS[2]` the ready list,
`ARGV[1]` the current time in ms.  The whole script runs atomically on
the server, so it is embedded as one pure transition. -/

/-- The `moveDelayed` script as a state transition: given the delayed
sorted set `z`, the ready list `l` and the current time `now`, return
(returned count, new sorted set, new ready list). -/
def moveDelayed (z : ZSet) (l : List String) (now : Int) :
    Nat × ZSet × List String :=
  let messages := zrangebyscoreLe z now
  let count := messages.length
  if 0 < count then
    (count, zremrangebyscoreLe z now, lpushAll l messages)
  else
    (count, z, l)

theorem lpushAll_eq_reverse_append (l : List String) (msgs : List String) :
    lpushAll l msgs = msgs.reverse ++ l := by
  induction msgs generalizing l with
  | nil => rfl
  | cons m ms ih =>
    calc lpushAll l (m :: ms) = lpushAll (m :: l) ms := rfl
    _ = ms.reverse ++ (m :: l) := ih (m :: l)
    _ = (m :: ms).reverse ++ l := by simp

theorem filter_gt_eq_self_of_filter_le_nil (z : ZSet) (now : Int)
    (h : z.filter (fun p => p.2 ≤ now) = []) :
    z.filter (fun p => now < p.2) = z := by
  rw [List.filter_eq_self]
  intro a ha
  have hnot : ¬ (a.2 ≤ now) := by
    have := List.filter_eq_nil_iff.mp h a ha
    simpa using this
  simpa using lt_of_not_le hnot

/-- C2.  The `moveDelayed` script, run atomically with `KEYS=[ZSET, LIST]`
and `ARGV=[nowMs]`, moves exactly the members of the sorted set whose
score is ≤ `nowMs`: each of them is left-pushed in iteration order onto
the list (so the new list is their reverse prepended to the old list),
the scored range is removed from the sorted set, and the returned value
is the number of members moved.  When no member qualifies, both keys are
unchanged and the returned count is 0. -/
theorem moveDelayed_spec (z : ZSet) (l : List String) (now : Int) :
    moveDelayed z l now =
      ((z.filter (fun p => p.2 ≤ now)).length,
       z.filter (fun p => now < p.2),
       ((z.filter (fun p => p.2 ≤ now)).map Prod.fst).reverse ++ l) ∧
    (z.filter (fun p => p.2 ≤ now) = [] → moveDelayed z l now = (0, z, l)) := by
  constructor
  · unfold moveDelayed zrangebyscoreLe zremrangebyscoreLe
    by_cases hpos : 0 < ((z.filter (fun p => p.2 ≤ now)).map Prod.fst).length
    · simp only [hpos, if_pos, lpushAll_eq_reverse_append]
      simp
    · have hnil : z.filter (fun p => p.2 ≤ now) = [] := by
        have := Nat.eq_zero_of_not_pos hpos
        simpa using this
      simp [hnil, filter_gt_eq_self_of_filter_le_nil z now hnil]
  · intro h
    unfold moveDelayed zrangebyscoreLe
    simp [h]

/-- Witness for the vacuous-move branch of C2 at a concrete sorted set in
which no score is due: state unchanged, 0 returned. -/
theorem moveDelayed_spec_witness :
    ([(("m", (10 : Int)) : String × Int)].filter (fun p => p.2 ≤ (5 : Int)) = []) ∧
    moveDelayed [("m", 10)] ["x"] 5 = (0, [("m", 10)], ["x"]) := by
  refine ⟨by decide, ?_⟩
  exact (moveDelayed_spec [("m", 10)] ["x"] 5).2 (by decide)

/-! ### JavaScript string primitives used by the embedded handlers

`String.prototype.split(":")`, `Array.prototype.join(":")` and `Number(...)`
on decimal integer numerals, modelled by structural recursion on character
lists so every definition evaluates inside the kernel. -/

/-- Split a character list at every occurrence of `sep`; always returns at
least one (possibly empty) segment, like JS `split`. -/
def splitSeg (sep : Char) : List Char → List (List Char)
  | [] => [[]]
  | c :: cs =>
    match splitSeg sep cs with
    | [] => [[c]]
    | h :: t => if c = sep then [] :: h :: t else (c :: h) :: t

/-- JS `key.split(":")`. -/
def jsSplitColon (s : String) : List String :=
  (splitSeg ':' s.data).map String.mk

/-- JS `segments.join(":")`. -/
def jsJoinColon : List String → String
  | [] => ""
  | [x] => x
  | x :: y :: t => x ++ ":" ++ jsJoinColon (y :: t)

/-- Decimal digit accumulator for `jsNumber`. -/
def parseNatAux : List Char → Nat → Option Nat
  | [], acc => some acc
  | c :: cs, acc =>
    if c.isDigit then parseNatAux cs (acc * 10 + (c.toNat - 48)) else none

/-- JS `Number(s)` restricted to the decimal integer numerals that occur as
trailing `expireMs` segments of worker keys ( `Number("") = 0` included);
`none` stands for `NaN`, for which every `>=` comparison is false. -/
def jsNumber (s : String) : Option Int :=
  match s.data with
  | [] => some 0
  | '-' :: [] => none
  | '-' :: d :: ds => (parseNatAux (d :: ds) 0).map (fun n => -(n : Int))
  | ds => (parseNatAux ds 0).map (fun n => (n : Int))

/-! ### The safe-delivery sweeper (profile.ts, `RedisQueue.watch`,
`safeCheckInterval` body)

For each key returned by `SCAN MATCH "<prefix>:*:worker:*"` the sweeper runs

```text
const kp = key.split(':');
if (Number(kp.pop()) >= now) {
    const qKey = `${kp.shift()}:${kp.shift()}`;
    await this.writer.rpoplpush(key, qKey);
}
```

`Number(...)` on the trailing segment is modelled by `jsNumber` (the
trailing segment of a worker key is a decimal ms timestamp); a segment that
is not a numeral yields `none` (`NaN`), and the JS `NaN >= now` comparison
is false, so no move happens — the `none` branch below. -/

/-- JavaScript `kp.shift() + ":" + kp.shift()`: the first two elements of
the segment list, a missing element printing as "undefined" exactly as JS
string interpolation of `undefined` does. -/
def jsShift2 (kp : List String) : String :=
  kp.getD 0 "undefined" ++ ":" ++ kp.getD 1 "undefined"

/-- One sweeper iteration on one scanned worker key: pop the trailing
segment, parse it as the expire timestamp, and when it is ≥ `now`
issue `RPOPLPUSH key qKey` where `qKey` is the first two segments. -/
def sweepKeyStep (st : KeySpace) (now : Int) (key : String) : KeySpace :=
  match ((jsSplitColon key).getLast?).bind jsNumber with
  | some expireMs =>
    if expireMs ≥ now then
      rpoplpush st key (jsShift2 (jsSplitColon key).dropLast)
    else st
  | none => st

theorem rpoplpush_effect (st : KeySpace) (src dst : String) (v : String)
    (hv : (st src).getLast? = some v) (hne : dst ≠ src) :
    rpoplpush st src dst dst = v :: st dst ∧
    rpoplpush st src dst src = (st src).dropLast := by
  unfold rpoplpush
  rw [hv]
  simp only [KeySpace.update]
  constructor
  · simp [hne, Ne.symm hne]
  · simp [hne, Ne.symm hne]

/-- C1.  During a safe-delivery sweep, a scanned worker key whose trailing
segment parses as the integer `n` triggers `RPOPLPUSH` from the worker key
onto the parent key built from the key's first two segments if and only if
`n ≥ now` (the sweep's current time): when `n ≥ now` the step equals that
`RPOPLPUSH` (which moves the tail element of the worker list onto the head
of the parent list, as the last conjunct makes explicit), and when
`n < now` the key space is untouched.  For a well-formed five-segment
worker key `"<prefix>:<queueName>:worker:<uuid>:<expireMs>"` the parent key
is exactly `"<prefix>:<queueName>"`. -/
theorem sweeper_moves_iff (st : KeySpace) (key : String) (now n : Int)
    (h : (((jsSplitColon key).getLast?).bind jsNumber) = some n) :
    (n ≥ now → sweepKeyStep st now key
        = rpoplpush st key (jsShift2 ((jsSplitColon key).dropLast))) ∧
    (n < now → sweepKeyStep st now key = st) ∧
    (∀ p q w u e, jsSplitColon key = [p, q, w, u, e] →
        jsShift2 ((jsSplitColon key).dropLast) = p ++ ":" ++ q) ∧
    (∀ v, n ≥ now → (st key).getLast? = some v →
        jsShift2 ((jsSplitColon key).dropLast) ≠ key →
        sweepKeyStep st now key (jsShift2 ((jsSplitColon key).dropLast))
            = v :: st (jsShift2 ((jsSplitColon key).dropLast)) ∧
        sweepKeyStep st now key key = (st key).dropLast) := by
  have hmove : n ≥ now → sweepKeyStep st now key
      = rpoplpush st key (jsShift2 ((jsSplitColon key).dropLast)) := by
    intro hge
    unfold sweepKeyStep
    rw [h]
    simp [hge]
  refine ⟨hmove, ?_, ?_, ?_⟩
  · intro hlt
    unfold sweepKeyStep
    rw [h]
    simp [not_le.mpr hlt]
  · intro p q w u e hsplit
    rw [hsplit]
    simp [jsShift2]
  · intro v hge hv hne
    rw [hmove hge]
    exact rpoplpush_effect st key
      (jsShift2 ((jsSplitColon key).dropLast)) v hv hne

/-- Concrete key space for the sweeper witness: one pending message on one
worker key. -/
def sweepStore : KeySpace :=
  fun k => if k = "imq:Q:worker:u1:100" then ["m1"] else []

/-- Witness for C1 at the concrete worker key "imq:Q:worker:u1:100" with
sweep time 50: the trailing segment parses as 100 ≥ 50 and the step is the
`RPOPLPUSH` back onto "imq:Q". -/
theorem sweeper_moves_iff_witness :
    (((jsSplitColon "imq:Q:worker:u1:100").getLast?).bind jsNumber
        = some 100) ∧
    sweepKeyStep sweepStore 50 "imq:Q:worker:u1:100"
        = rpoplpush sweepStore "imq:Q:worker:u1:100"
            (jsShift2 ((jsSplitColon "imq:Q:worker:u1:100").dropLast)) := by
  refine ⟨by decide, ?_⟩
  exact (sweeper_moves_iff sweepStore "imq:Q:worker:u1:100" 50 100
    (by decide)).1 (by norm_num)

/-! ### The watcher pmessage handler (profile.ts, `RedisQueue.watch`)

```text
const key = args.pop().split(':');
if (key.pop() !== 'ttl') { return; }
key.pop(); // msg id
await this.processDelayed(key.join(':'));
```

The handler is embedded as a function from the expired key's string form to
the optional argument passed to `processDelayed` (`none` = no action). -/

/-- The pmessage handler body: split the expired key on ":", require the
final segment to be "ttl", drop it and the message-id segment, and return
the rejoined remainder (the list key handed to `processDelayed`). -/
def handlePMessage (expiredKey : String) : Option String :=
  match (jsSplitColon expiredKey).getLast? with
  | some lastSeg =>
    if lastSeg = "ttl" then
      some (jsJoinColon (jsSplitColon expiredKey).dropLast.dropLast)
    else none
  | none => none

/-- C5.  The pmessage handler invokes `processDelayed` exactly when the last
":"-segment of the expired key equals "ttl", and then passes it the key
formed by dropping the last two segments (the "ttl" marker and the message
id); any other key causes no action. -/
theorem pmessage_handler_spec (s : String) :
    (∀ k, handlePMessage s = some k ↔
        ((jsSplitColon s).getLast? = some "ttl" ∧
          k = jsJoinColon ((jsSplitColon s).dropLast.dropLast))) ∧
    (handlePMessage s = none ↔ (jsSplitColon s).getLast? ≠ some "ttl") := by
  constructor
  · intro k
    unfold handlePMessage
    cases hlast : (jsSplitColon s).getLast? with
    | none => simp
    | some lastSeg =>
      by_cases httl : lastSeg = "ttl"
      · subst httl
        simp [eq_comm]
      · simp [httl, Ne.symm httl]
  · unfold handlePMessage
    cases hlast : (jsSplitColon s).getLast? with
    | none => simp
    | some lastSeg =>
      by_cases httl : lastSeg = "ttl"
      · subst httl
        simp
      · simp [httl]

/-- Witness for C5: on the expired key "imq:Q:someid:ttl" the handler calls
`processDelayed "imq:Q"`; on "imq:watch:lock" it does nothing. -/
theorem pmessage_handler_spec_witness :
    handlePMessage "imq:Q:someid:ttl" = some "imq:Q" ∧
    handlePMessage "imq:watch:lock" = none := by
  constructor
  · exact ((pmessage_handler_spec "imq:Q:someid:ttl").1 "imq:Q").mpr
      ⟨by decide, by decide⟩
  · exact (pmessage_handler_spec "imq:watch:lock").2.mpr (by decide)

/-! ### The producer `send` (profile.ts, `RedisQueue.send`)

```text
const id = uuid();
const data: IMessage = { id, message, from: this.name };
const key = `${this.options.prefix}:${toQueue}`;
const packet = this.pack(data);
const cb = (error) => error && errorHandler && errorHandler(error);
if (delay) {
    this.writer.zadd(`${key}:delayed`, Date.now() + delay, packet, (err) => {
        if (err) return cb(err);
        this.writer.set(`${key}:${id}:ttl`, '', 'PX', delay, 'NX', cb);
    });
} else {
    this.writer.lpush(key, packet, cb);
}
return id;
```

The optional numeric `delay` is modelled as `Option Int` with JS
truthiness: `none` (undefined) and `some 0` are falsy.  The issued server
commands are reified as a command list; transport outcomes are an
environment mapping each command to an optional error, and the value
returned to the caller together with the errors handed to the optional
`errorHandler` are computed from it. -/

/-- The Redis commands `send` can issue. -/
inductive RedisCmd where
  | lpush (key value : String)
  | zadd (key : String) (score : Int) (value : String)
  | setPxNx (key value : String) (px : Int)
deriving DecidableEq

/-- JS truthiness of the optional numeric `delay` argument. -/
def delayTruthy : Option Int → Bool
  | none => false
  | some d => d != 0

/-- The command sequence `send` issues on the success path (each callback
reporting no transport error), for prefix `pfx`, target queue `toQueue`,
packed envelope `packet`, generated id `id`, optional `delay` and current
time `now`. -/
def sendCommands (pfx toQueue packet id : String) (delay : Option Int)
    (now : Int) : List RedisCmd :=
  let key := pfx ++ ":" ++ toQueue
  if delayTruthy delay then
    [RedisCmd.zadd (key ++ ":delayed") (now + delay.getD 0) packet,
     RedisCmd.setPxNx (key ++ ":" ++ id ++ ":ttl") "" (delay.getD 0)]
  else
    [RedisCmd.lpush key packet]

/-- Transport outcome environment: the error, if any, each issued command
fails with. -/
def Outcome : Type := RedisCmd → Option String

/-- Full execution of `send` for a given transport outcome: returns the
value handed back to the caller and the errors delivered to the optional
`errorHandler` (none are delivered when no handler was passed, matching
`error && errorHandler && errorHandler(error)`).  The `SET ... PX NX`
command is attempted only when the preceding `ZADD` succeeded, matching
the nested callbacks. -/
def sendExec (pfx toQueue packet id : String) (delay : Option Int)
    (now : Int) (hasHandler : Bool) (o : Outcome) : String × List String :=
  let key := pfx ++ ":" ++ toQueue
  let report : Option String → List String := fun e =>
    match e with
    | some err => if hasHandler then [err] else []
    | none => []
  if delayTruthy delay then
    match o (RedisCmd.zadd (key ++ ":delayed") (now + delay.getD 0) packet) with
    | some err => (id, report (some err))
    | none =>
      (id, report (o (RedisCmd.setPxNx (key ++ ":" ++ id ++ ":ttl") ""
        (delay.getD 0))))
  else
    (id, report (o (RedisCmd.lpush key packet)))

/-- C3.  On the success path of `send(toQueue, message, delay)`: when
`delay` is falsy or zero the packed envelope is left-pushed onto
`"<prefix>:<toQueue>"` and that is the only command issued (no other key
is touched); when `delay > 0` the packed envelope is added to
`"<prefix>:<toQueue>:delayed"` with score `now + delay` and afterwards
`"<prefix>:<toQueue>:<id>:ttl"` is set to the empty string with PX expiry
`delay` and the NX flag. -/
theorem send_commands_spec (pfx toQueue packet id : String) (now : Int) :
    (∀ delay, delay = none ∨ delay = some 0 →
        sendCommands pfx toQueue packet id delay now
          = [RedisCmd.lpush (pfx ++ ":" ++ toQueue) packet]) ∧
    (∀ d : Int, 0 < d →
        sendCommands pfx toQueue packet id (some d) now
          = [RedisCmd.zadd (pfx ++ ":" ++ toQueue ++ ":delayed") (now + d)
               packet,
             RedisCmd.setPxNx (pfx ++ ":" ++ toQueue ++ ":" ++ id ++ ":ttl")
               "" d]) := by
  constructor
  · intro delay hdelay
    rcases hdelay with h | h <;> subst h <;> rfl
  · intro d hd
    have htruthy : delayTruthy (some d) = true := by
      simp [delayTruthy]
      omega
    simp [sendCommands, htruthy, String.append_assoc]

/-- Witness for C3 at concrete arguments: an immediate send issues exactly
one LPUSH, a send with delay 7 issues the ZADD/SET pair. -/
theorem send_commands_spec_witness :
    sendCommands "imq" "Q" "pkt" "id1" (some 0) 1000
      = [RedisCmd.lpush "imq:Q" "pkt"] ∧
    sendCommands "imq" "Q" "pkt" "id1" (some 7) 1000
      = [RedisCmd.zadd "imq:Q:delayed" 1007 "pkt",
         RedisCmd.setPxNx "imq:Q:id1:ttl" "" 7] := by
  constructor
  · exact ((send_commands_spec "imq" "Q" "pkt" "id1" 1000).1 (some 0)
      (Or.inr rfl)).trans (by decide)
  · exact ((send_commands_spec "imq" "Q" "pkt" "id1" 1000).2 7
      (by norm_num)).trans (by decide)

/-- C7.  `send` returns the freshly generated envelope id regardless of the
transport outcome of ZADD, SET or LPUSH: for every outcome environment and
every handler presence, the first component of `sendExec` is the generated
id, and transport failures surface only as errors handed to the optional
`errorHandler` (the second component, empty when no handler is given). -/
theorem send_returns_id (pfx toQueue packet id : String) (delay : Option Int)
    (now : Int) (hasHandler : Bool) (o : Outcome) :
    (sendExec pfx toQueue packet id delay now hasHandler o).1 = id ∧
    (hasHandler = false →
      (sendExec pfx toQueue packet id delay now hasHandler o).2 = []) := by
  unfold sendExec
  constructor
  · by_cases hdt : delayTruthy delay = true
    · simp only [hdt, if_pos]
      cases o (RedisCmd.zadd (pfx ++ ":" ++ toQueue ++ ":delayed")
          (now + delay.getD 0) packet) <;> rfl
    · simp only [Bool.not_eq_true] at hdt
      simp [hdt]
  · intro hh
    subst hh
    by_cases hdt : delayTruthy delay = true
    · simp only [hdt, if_pos]
      cases o (RedisCmd.zadd (pfx ++ ":" ++ toQueue ++ ":delayed")
          (now + delay.getD 0) packet) with
      | none =>
        cases o (RedisCmd.setPxNx (pfx ++ ":" ++ toQueue ++ ":" ++ id
            ++ ":ttl") "" (delay.getD 0)) <;> rfl
      | some err => rfl
    · simp only [Bool.not_eq_true] at hdt
      simp only [hdt, Bool.false_eq_true, if_neg, not_false_iff]
      cases o (RedisCmd.lpush (pfx ++ ":" ++ toQueue) packet) <;> rfl

/-- Witness for C7 at a failing ZADD outcome without a handler: the id is
still returned and nothing is reported. -/
theorem send_returns_id_witness :
    (sendExec "imq" "Q" "pkt" "id1" (some 7) 1000 false
        (fun _ => some "boom")).1 = "id1" ∧
    (sendExec "imq" "Q" "pkt" "id1" (some 7) 1000 false
        (fun _ => some "boom")).2 = [] := by
  refine ⟨(send_returns_id "imq" "Q" "pkt" "id1" (some 7) 1000 false
    (fun _ => some "boom")).1, ?_⟩
  exact (send_returns_id "imq" "Q" "pkt" "id1" (some 7) 1000 false
    (fun _ => some "boom")).2 rfl

/-! ### The consumer step `process` (profile.ts, `RedisQueue.process`)

```text
let [queue, data] = message;
if (!queue || queue !== this.key) { return this; }
try {
    const { id, message, from } = this.unpack(data);
    this.emit('message', message, id, from);
} catch (err) {
    this.emit('error', err, 'OnMessage');
    this.logger.error(...);
}
return this;
```

The envelope payload type is a parameter `α`; the codec is passed in as a
fallible `unpack` (`Except` models the JS throw).  `process` is embedded
as the list of events it emits; it is a total function, so a decode
failure emits an error event and returns normally instead of re-throwing. -/

/-- The wire envelope `\x7bid, from, message\x7d`. -/
structure Envelope (α : Type) where
  id : String
  «from» : String
  message : α
deriving DecidableEq

/-- Events a queue can emit while processing one message. -/
inductive QEvent (α : Type) where
  | message (payload : α) (id : String) (sender : String)
  | error (err : String) (source : String)
deriving DecidableEq

/-- One `process([queue, data])` step of a queue whose own list key is
`selfKey`, returning the emitted events. -/
def process {α : Type} (selfKey : String)
    (unpack : String → Except String (Envelope α))
    (queue data : String) : List (QEvent α) :=
  if queue = "" ∨ queue ≠ selfKey then []
  else
    match unpack data with
    | Except.ok e => [QEvent.message e.message e.id e.«from»]
    | Except.error err => [QEvent.error err "OnMessage"]

/-- C6.  `process [key, data]`: a falsy key or a key different from the
local queue's list key emits nothing; otherwise a successful unpack emits
exactly one `message(payload, id, from)` event, and a failed unpack emits
exactly one `error(err, "OnMessage")` event — in every case `process`
returns normally (it is a total function into an event list). -/
theorem process_spec {α : Type} (selfKey : String)
    (unpack : String → Except String (Envelope α)) (queue data : String) :
    ((queue = "" ∨ queue ≠ selfKey) →
        process selfKey unpack queue data = []) ∧
    (queue ≠ "" → queue = selfKey →
        (∀ e, unpack data = Except.ok e →
            process selfKey unpack queue data
              = [QEvent.message e.message e.id e.«from»]) ∧
        (∀ err, unpack data = Except.error err →
            process selfKey unpack queue data
              = [QEvent.error err "OnMessage"])) := by
  constructor
  · intro hdrop
    unfold process
    simp [hdrop]
  · intro hne hkey
    have hcond : ¬ (queue = "" ∨ queue ≠ selfKey) := by
      push_neg
      exact ⟨hne, hkey⟩
    constructor
    · intro e he
      unfold process
      simp [hcond, he]
    · intro err herr
      unfold process
      simp [hcond, herr]

/-- Witness for C6 at concrete inputs: a matching key with a good packet
emits one message event; with a bad packet it emits one OnMessage error;
a foreign key emits nothing. -/
theorem process_spec_witness :
    process "imq:Q"
        (fun s => if s = "good" then Except.ok (⟨"i1", "sender", 42⟩ : Envelope Nat)
          else Except.error "bad json") "imq:Q" "good"
      = [QEvent.message 42 "i1" "sender"] ∧
    process "imq:Q"
        (fun s => if s = "good" then Except.ok (⟨"i1", "sender", 42⟩ : Envelope Nat)
          else Except.error "bad json") "imq:Q" "oops"
      = [QEvent.error "bad json" "OnMessage"] ∧
    process "imq:Q"
        (fun s => if s = "good" then Except.ok (⟨"i1", "sender", 42⟩ : Envelope Nat)
          else Except.error "bad json") "imq:Other" "good"
      = [] := by
  refine ⟨?_, ?_, ?_⟩
  · exact ((process_spec "imq:Q" _ "imq:Q" "good").2 (by decide) rfl).1
      ⟨"i1", "sender", 42⟩ (by rfl)
  · exact ((process_spec "imq:Q" _ "imq:Q" "oops").2 (by decide) rfl).2
      "bad json" (by rfl)
  · exact (process_spec "imq:Q" _ "imq:Other" "good").1
      (Or.inr (by decide))

/-! ### Lifecycle: `start` (profile.ts, `RedisQueue.start`)

```text
if (!this.name) { throw new TypeError(`${this.name}: No queue name provided!`); }
if (this.initialized) { return this; }
const connPromises = [];
if (!this.reader) { connPromises.push(this.connect('reader', this.options)); }
if (!this.writer) { connPromises.push(this.connect('writer', this.options)); }
await Promise.all(connPromises);
if (!this.signalsInitialized) { ...; this.signalsInitialized = true; }
await this.initWatcher();
this.read();
this.processDelayed(this.key).catch(...);
this.initialized = true;
return this;
```

The observable instance state is embedded as a record; connection
establishment is counted so that "opens no additional connections" is a
statement about the state.  The success path of the awaited connections is
modelled (the claim quantifies over a *successful* first `start`). -/

/-- Observable lifecycle state of a `RedisQueue` instance. -/
structure QState where
  name : String
  initialized : Bool
  hasReader : Bool
  hasWriter : Bool
  signalsInitialized : Bool
  connCount : Nat
deriving DecidableEq

/-- The `start` transition: error on a falsy name, short-circuit when
already initialized, otherwise open the missing reader/writer connections,
install signal handlers once, and mark the instance initialized. -/
def start (s : QState) : Except String QState :=
  if s.name = "" then
    Except.error (s.name ++ ": No queue name provided!")
  else if s.initialized then
    Except.ok s
  else
    Except.ok
      { name := s.name
        initialized := true
        hasReader := true
        hasWriter := true
        signalsInitialized := true
        connCount := s.connCount + (if s.hasReader then 0 else 1)
          + (if s.hasWriter then 0 else 1) }

/-- C8.  `start` is idempotent: whenever a first `start` succeeds with
state `t`, a second `start` resolves to exactly the same state `t` (hence
the connection count is unchanged and no further initialization happens);
and `start` on a queue with an empty name fails with the error surfaced to
the caller. -/
theorem start_idempotent (s : QState) :
    (∀ t, start s = Except.ok t → start t = Except.ok t) ∧
    (s.name = "" →
        start s = Except.error (s.name ++ ": No queue name provided!")) := by
  constructor
  · intro t ht
    by_cases hname : s.name = ""
    · simp [start, hname] at ht
    · by_cases hinit : s.initialized = true
      · have : t = s := by
          simp [start, hname, hinit] at ht
          exact ht.symm
        subst this
        simp [start, hname, hinit]
      · simp only [Bool.not_eq_true] at hinit
        simp only [start, hname, hinit, if_neg, Bool.false_eq_true,
          not_false_iff, if_false, Except.ok.injEq] at ht
        subst ht
        simp [start, hname]
  · intro hname
    simp [start, hname]

/-- Witness for C8: a queue named "Q" with nothing yet connected starts
into the fully connected state, a second `start` returns it unchanged, and
a nameless queue fails. -/
theorem start_idempotent_witness :
    start ⟨"Q", true, true, true, true, 2⟩
      = Except.ok ⟨"Q", true, true, true, true, 2⟩ ∧
    start ⟨"", false, false, false, false, 0⟩
      = Except.error ": No queue name provided!" := by
  constructor
  · exact (start_idempotent ⟨"Q", false, false, false, false, 0⟩).1
      ⟨"Q", true, true, true, true, 2⟩ (by rfl)
  · exact (start_idempotent ⟨"", false, false, false, false, 0⟩).2 rfl

/-! ### The `profile` decorator (profile.ts, `profile`; same wrapper shape
in the second decorator source)

```text
descriptor.value = function(...args) {
    if (!(debugTime || debugArgs)) { return original.apply(this, args); }
    const start = mt.now();
    const result = original.apply(this, args);
    if (result && typeof result.then === 'function') {
        result.then((res) => { printDebugInfo(...); return res; });
        return result;
    }
    printDebugInfo(...);
    return result;
};
```

The wrapped operation is a function into `Except` (a JS throw is the
`error` case; an async call returning the original promise is the value
being handed back unchanged).  The wrapper is embedded as the pair of the
value it returns and the log lines it writes: when the call throws,
`printDebugInfo` is never reached; when it returns, the time line and the
args line are written per enabled channel. -/

/-- The log lines `printDebugInfo` writes: one timing line when `debugTime`
is set and one args line when `debugArgs` is set. -/
def printDebugInfoLines (debugTime debugArgs : Bool)
    (className methodName timeStr argsStr : String) : List String :=
  (if debugTime then
      [className ++ "." ++ methodName ++ "() executed in " ++ timeStr]
    else []) ++
  (if debugArgs then
      [className ++ "." ++ methodName ++ "() called with args: " ++ argsStr]
    else [])

/-- The decorator's replacement method: pass through untouched when both
channels are off, otherwise run the original and, when it returns, write
the debug lines. -/
def profileWrap {α ε β : Type} (debugTime debugArgs : Bool)
    (original : α → Except ε β)
    (className methodName timeStr argsStr : String) (args : α) :
    Except ε β × List String :=
  if ¬ (debugTime || debugArgs) then
    (original args, [])
  else
    match original args with
    | Except.error e => (Except.error e, [])
    | Except.ok v =>
      (Except.ok v,
        printDebugInfoLines debugTime debugArgs className methodName
          timeStr argsStr)

/-- C9.  The `profile` decorator never alters the wrapped operation's
result: for every flag combination the wrapper returns exactly the
original call's outcome (value or exception); and when both time and args
logging are disabled it is the unchanged original call with no logging at
all. -/
theorem profile_transparent {α ε β : Type} (debugTime debugArgs : Bool)
    (original : α → Except ε β)
    (className methodName timeStr argsStr : String) (args : α) :
    (profileWrap debugTime debugArgs original className methodName timeStr
        argsStr args).1 = original args ∧
    (debugTime = false → debugArgs = false →
      profileWrap debugTime debugArgs original className methodName timeStr
        argsStr args = (original args, [])) := by
  constructor
  · unfold profileWrap
    by_cases hoff : ¬ (debugTime || debugArgs) = true
    · simp [hoff]
    · simp only [hoff, if_neg, not_not]
      cases original args <;> simp
  · intro ht ha
    subst ht
    subst ha
    rfl

/-- Witness for C9 with both channels off and a throwing operation: the
wrapper is the bare original call, and the thrown error is propagated. -/
theorem profile_transparent_witness :
    (profileWrap false false
        (fun n : Nat => if n = 0 then Except.error "zero" else Except.ok (n + 1))
        "C" "m" "1 μs" "[]" 0).1
      = (fun n : Nat => if n = 0 then Except.error "zero"
          else Except.ok (n + 1)) 0 ∧
    profileWrap false false
        (fun n : Nat => if n = 0 then Except.error "zero" else Except.ok (n + 1))
        "C" "m" "1 μs" "[]" 0
      = (Except.error "zero", []) := by
  constructor
  · exact (profile_transparent false false
      (fun n : Nat => if n = 0 then Except.error "zero" else Except.ok (n + 1))
      "C" "m" "1 μs" "[]" 0).1
  · exact ((profile_transparent false false
      (fun n : Nat => if n = 0 then Except.error "zero" else Except.ok (n + 1))
      "C" "m" "1 μs" "[]" 0).2 rfl rfl).trans (by rfl)

/-! ### `intrand` (profile.ts)

`Math.floor(Math.random() * (max - min + 1)) + min`, with the random draw
modelled as an arbitrary element `r` of `[0, 1)` in a linearly ordered
field with a floor (so the theorem covers the reals, and the witness
evaluates over `ℚ`). -/

/-- `intrand(min, max)` at random draw `r`. -/
def intrand {K : Type} [LinearOrderedField K] [FloorRing K]
    (min max : Int) (r : K) : Int :=
  ⌊r * (((max - min + 1 : Int) : K))⌋ + min

/-- C10.  For integers `min ≤ max` and any random draw `r ∈ [0, 1)`,
`intrand min max r` lies in `[min, max]`; in particular the
watcher-election back-off `intrand 1 50 r` always lies in 1–50 (the
witness instantiates exactly that call). -/
theorem intrand_in_range {K : Type} [LinearOrderedField K] [FloorRing K]
    (min max : Int) (r : K) (hminmax : min ≤ max) (h0 : 0 ≤ r) (h1 : r < 1) :
    min ≤ intrand min max r ∧ intrand min max r ≤ max := by
  have hkpos : (0 : K) < ((max - min + 1 : Int) : K) := by
    have : (0 : Int) < max - min + 1 := by omega
    exact_mod_cast this
  have hlow : (0 : K) ≤ r * ((max - min + 1 : Int) : K) :=
    mul_nonneg h0 (le_of_lt hkpos)
  have hhigh : r * ((max - min + 1 : Int) : K) < ((max - min + 1 : Int) : K) := by
    calc r * ((max - min + 1 : Int) : K)
        < 1 * ((max - min + 1 : Int) : K) := by
          exact mul_lt_mul_of_pos_right h1 hkpos
    _ = ((max - min + 1 : Int) : K) := one_mul _
  have hfl0 : (0 : Int) ≤ ⌊r * ((max - min + 1 : Int) : K)⌋ := by
    rw [Int.le_floor]
    exact_mod_cast hlow
  have hflk : ⌊r * ((max - min + 1 : Int) : K)⌋ < max - min + 1 := by
    rw [Int.floor_lt]
    exact_mod_cast hhigh
  unfold intrand
  omega

/-- Witness for C10 at the watcher back-off call `intrand 1 50` with the
concrete draw 1/2 over ℚ: the result lies in 1–50. -/
theorem intrand_in_range_witness :
    1 ≤ intrand 1 50 ((1 : ℚ) / 2) ∧ intrand 1 50 ((1 : ℚ) / 2) ≤ 50 :=
  intrand_in_range 1 50 ((1 : ℚ) / 2) (by norm_num) (by norm_num)
    (by norm_num)

/-! ### The codec (profile.ts, `pack` / `unpack` and the constructor's
codec selection)

```text
export function pack(data) { return gzip(JSON.stringify(data)).toString('binary'); }
export function unpack(data) { return JSON.parse(gunzip(Buffer.from(data, 'binary')).toString()); }
...
this.pack = this.options.useGzip ? pack : JSON.stringify;
this.unpack = this.options.useGzip ? unpack : JSON.parse;
```

`JSON.stringify` / `JSON.parse` and `gzip`/`gunzip` (together with the
binary-string `Buffer` conversions) are external collaborators the spec
assumes as primitives; they enter as parameters `stringify`, `parse`,
`gz`, `gunz` with their assumed inversion facts as hypotheses at the
envelope being packed.  `mkPack`/`mkUnpack` embed the repository's codec
selection and composition, which is what the claim is about. -/

/-- Codec selection in the `RedisQueue` constructor: plain JSON, or
gzip-of-JSON as a binary string. -/
def mkPack {α : Type} (useGzip : Bool) (stringify : α → String)
    (gz : String → String) : α → String :=
  if useGzip then fun x => gz (stringify x) else stringify

/-- Codec selection for the decoding direction; decoding is fallible
(`JSON.parse` and `gunzip` throw on malformed input). -/
def mkUnpack {α : Type} (useGzip : Bool) (parse : String → Option α)
    (gunz : String → Option String) : String → Option α :=
  if useGzip then fun s => (gunz s).bind parse else parse

/-- C4.  For every envelope `x = \x7bid, from, message\x7d` and both codec
modes, unpacking the packed form yields the envelope back, given the
assumed round-trip facts of the external JSON and gzip primitives at `x`:
`unpack (pack x) = some x`. -/
theorem codec_roundtrip {β : Type} (useGzip : Bool)
    (stringify : Envelope β → String) (parse : String → Option (Envelope β))
    (gz : String → String) (gunz : String → Option String)
    (x : Envelope β)
    (hparse : parse (stringify x) = some x)
    (hgz : gunz (gz (stringify x)) = some (stringify x)) :
    mkUnpack useGzip parse gunz (mkPack useGzip stringify gz x) = some x := by
  cases useGzip with
  | false =>
    simp [mkPack, mkUnpack, hparse]
  | true =>
    simp [mkPack, mkUnpack, hgz, hparse]

/-- Witness for C4 with a concrete envelope and concrete primitives
satisfying the round-trip assumptions, in gzip mode. -/
theorem codec_roundtrip_witness :
    mkUnpack true
        (fun s => if s = "enc" then some (⟨"i1", "a", 3⟩ : Envelope Nat)
          else none)
        (fun s => some (String.drop s 1))
        (mkPack true (fun _ => "enc") (fun s => "G" ++ s)
          (⟨"i1", "a", 3⟩ : Envelope Nat))
      = some (⟨"i1", "a", 3⟩ : Envelope Nat) :=
  codec_roundtrip true (fun _ => "enc")
    (fun s => if s = "enc" then some (⟨"i1", "a", 3⟩ : Envelope Nat) else none)
    (fun s => "G" ++ s) (fun s => some (String.drop s 1))
    ⟨"i1", "a", 3⟩ (by rfl) (by rfl)

end Imq
